import Mathlib

/-!
Verification of the group-membership tracking core of a WhatsApp bot.

The development shallowly embeds the bot's data model and operations:

* the Mongo collections `Group` and `User` become association lists with
  explicit records (`GroupRec`, `UserRec`); Mongo's `findOneAndUpdate`
  with and without `upsert` becomes first-match update / append;
* the process-wide in-memory monitored-group cache (a JS `Set<string>`)
  becomes a `List String` mutated in lockstep with the store;
* `new Date()` timestamps become an explicit `now : Nat` argument;
* the five event streams become a `WAEvent` inductive dispatched by
  `handleEvent`, with the `groupMetadata` lookup supplied as a pure
  oracle `String → Option GroupMetadata` (the client wrapper catches
  fetch errors and returns `null`, hence `Option`);
* for error-handling claims, a second layer (`...E` definitions) mirrors
  the `try`/`catch` structure of the source with fault flags for the
  store primitives; thrown errors carry the state reached so that a
  `catch` block resumes from the partial state.
-/

/- ------------------------------------------------------------------ -/
/- String model (JS `toLowerCase`, `includes`, `endsWith`)            -/
/- ------------------------------------------------------------------ -/

/-- Does the second char list occur at the head of the first? -/
def charsLeadMatch : List Char → List Char → Bool
  | _, [] => true
  | [], _ :: _ => false
  | c :: cs, d :: ds => c == d && charsLeadMatch cs ds

/-- Does the first char list contain the second as a contiguous run? -/
def charsHave : List Char → List Char → Bool
  | [], needle => needle.isEmpty
  | c :: cs, needle => charsLeadMatch (c :: cs) needle || charsHave cs needle

/-- Modelled from JS `String.prototype.includes`: substring test. -/
def strContains (s pat : String) : Bool := charsHave s.data pat.data

/-- Modelled from JS `String.prototype.toLowerCase` (ASCII-adequate). -/
def strToLower (s : String) : String := String.mk (s.data.map Char.toLower)

/-- Modelled from JS `a || b` on an optional string: `b` when `a` is
absent or empty (falsy), else the string itself. -/
def jsOrStr (a : Option String) (b : String) : String :=
  match a with
  | some s => if s = "" then b else s
  | none => b

/-- Modelled from the baileys library: `isJidGroup` holds when the JID
ends with `"@g.us"`. -/
def isJidGroup (jid : String) : Bool :=
  charsLeadMatch jid.data.reverse "@g.us".data.reverse

/- ------------------------------------------------------------------ -/
/- Configuration and keyword predicate                                -/
/- ------------------------------------------------------------------ -/

/-- Models `config.whatsapp.targetKeyword` from `src/config/index.ts`. -/
def targetKeyword : String := "neol"

/-- Models `GroupService.isTargetGroup`: false for an absent/empty name (JS
falsy guard `if (!groupName) return false`), else a case-insensitive
substring test of the configured keyword. -/
def isTargetGroup (groupName : String) : Bool :=
  if groupName = "" then false
  else strContains (strToLower groupName) targetKeyword

/-- Modelled from the spec's words (section 4.1) for comparison with the
source definition: "returns true iff the lower-cased name contains the
configured lower-cased keyword substring". -/
def isTargetGroupSpec (groupName : String) : Bool :=
  strContains (strToLower groupName) (strToLower targetKeyword)

/- ------------------------------------------------------------------ -/
/- Data model (Mongo collections as lists of records)                 -/
/- ------------------------------------------------------------------ -/

/-- A document of the `User` (membership) collection: unique per
`(phoneNumber, groupId)` pair. -/
structure UserRec where
  phoneNumber : String
  groupId : String
  isActive : Bool
  updatedAt : Nat
deriving DecidableEq, Repr

/-- A document of the `Group` collection: unique per `groupId`. -/
structure GroupRec where
  groupId : String
  isMonitored : Bool
  name : Option String
  updatedAt : Nat
deriving DecidableEq, Repr

/-- The document store: the two collections. -/
structure Store where
  groups : List GroupRec
  users : List UserRec
deriving DecidableEq, Repr

/-- The process state seen by `GroupService`: the store plus the
in-memory `monitoredGroupsCache` set (insertion-ordered). -/
structure ServiceState where
  store : Store
  monitoredGroupsCache : List String
deriving DecidableEq, Repr

/- ------------------------------------------------------------------ -/
/- Mongo primitives on the User collection                            -/
/- ------------------------------------------------------------------ -/

/-- First-match update half of
`User.findOneAndUpdate({phoneNumber, groupId}, {…, isActive: true, updatedAt: now})`. -/
def updateUserActive (phone gid : String) (now : Nat) : List UserRec → List UserRec
  | [] => []
  | u :: us =>
    if u.phoneNumber = phone ∧ u.groupId = gid then
      { u with isActive := true, updatedAt := now } :: us
    else
      u :: updateUserActive phone gid now us

/-- Models `User.findOneAndUpdate(..., { upsert: true })` with an active
member document: update the matching record, else insert it. -/
def upsertUserActive (users : List UserRec) (phone gid : String) (now : Nat) : List UserRec :=
  if ∃ u ∈ users, u.phoneNumber = phone ∧ u.groupId = gid then
    updateUserActive phone gid now users
  else
    users ++ [{ phoneNumber := phone, groupId := gid, isActive := true, updatedAt := now }]

/-- Models `User.findOneAndUpdate({phoneNumber, groupId}, {isActive: false, updatedAt: now})`
without upsert (also models `findByIdAndUpdate` on the record found for
that pair, which is unique by the compound index). -/
def updateUserInactive (phone gid : String) (now : Nat) : List UserRec → List UserRec
  | [] => []
  | u :: us =>
    if u.phoneNumber = phone ∧ u.groupId = gid then
      { u with isActive := false, updatedAt := now } :: us
    else
      u :: updateUserInactive phone gid now us

/- ------------------------------------------------------------------ -/
/- Mongo primitives on the Group collection                           -/
/- ------------------------------------------------------------------ -/

/-- First-match update half of the `Group.findOneAndUpdate` performed by
`addGroupToMonitored`: sets `isMonitored := true`, refreshes the
timestamp, and sets the name when one is supplied (mongoose drops the
`name` path from the update when the argument is `undefined`). -/
def updateGroupMonitored (gid : String) (gname : Option String) (now : Nat) :
    List GroupRec → List GroupRec
  | [] => []
  | g :: gs =>
    if g.groupId = gid then
      let newName := match gname with | some n => some n | none => g.name
      { g with groupId := gid, isMonitored := true, name := newName, updatedAt := now } :: gs
    else g :: updateGroupMonitored gid gname now gs

/-- Models `Group.findOneAndUpdate({groupId}, {...}, { upsert: true })`. -/
def upsertGroupMonitored (groups : List GroupRec) (gid : String) (gname : Option String)
    (now : Nat) : List GroupRec :=
  if ∃ g ∈ groups, g.groupId = gid then
    updateGroupMonitored gid gname now groups
  else
    groups ++ [{ groupId := gid, isMonitored := true, name := gname, updatedAt := now }]

/-- Models `Group.findOneAndUpdate({groupId}, {isMonitored: false})` without
upsert and without a timestamp refresh (as in `removeGroupFromMonitored`). -/
def setGroupUnmonitored (gid : String) : List GroupRec → List GroupRec
  | [] => []
  | g :: gs =>
    if g.groupId = gid then { g with isMonitored := false } :: gs
    else g :: setGroupUnmonitored gid gs

/-- The timestamp-free part of a group record, used to state that an
operation changes at most `updatedAt`. -/
def stripTs (g : GroupRec) : String × Bool × Option String :=
  (g.groupId, g.isMonitored, g.name)

/- ------------------------------------------------------------------ -/
/- GroupService                                                       -/
/- ------------------------------------------------------------------ -/

/-- Models `GroupService.isMonitored`: O(1) test against the in-memory cache
only, never the store. -/
def isMonitored (st : ServiceState) (gid : String) : Bool :=
  decide (gid ∈ st.monitoredGroupsCache)

/-- Models `GroupService.loadMonitoredGroups`: replace the cache with the ids
of all groups persisted with `isMonitored = true` (ids are unique by
the schema constraint, so the JS `Set` dedup is a no-op). -/
def loadMonitoredGroups (st : ServiceState) : ServiceState :=
  { st with monitoredGroupsCache :=
      (st.store.groups.filter (fun g => g.isMonitored)).map (fun g => g.groupId) }

/-- Models `GroupService.addGroupToMonitored`: upsert the Group record with
`isMonitored = true`, then insert the id into the cache if absent. -/
def addGroupToMonitored (st : ServiceState) (gid : String) (gname : Option String)
    (now : Nat) : ServiceState :=
  { store := { st.store with groups := upsertGroupMonitored st.store.groups gid gname now }
  , monitoredGroupsCache :=
      if gid ∈ st.monitoredGroupsCache then st.monitoredGroupsCache
      else st.monitoredGroupsCache ++ [gid] }

/-- Models `GroupService.removeGroupFromMonitored`: clear the persisted flag
(no upsert) and delete the id from the cache. -/
def removeGroupFromMonitored (st : ServiceState) (gid : String) : ServiceState :=
  { store := { st.store with groups := setGroupUnmonitored gid st.store.groups }
  , monitoredGroupsCache :=
      st.monitoredGroupsCache.filter (fun g => decide (¬ g = gid)) }

/-- Models `GroupService.syncGroupMembers`: full-snapshot reconciliation. No-op
when the group is not in the cache. Otherwise: snapshot the existing
records for the group, upsert every supplied member as active, then
deactivate every snapshot record that is still active and absent from
the supplied roster (`processedMembers` equals the supplied list as a
set by the time the second loop runs). -/
def syncGroupMembers (st : ServiceState) (gid : String) (members : List String)
    (now : Nat) : ServiceState :=
  if isMonitored st gid then
    let existingMembers := st.store.users.filter (fun u => decide (u.groupId = gid))
    let afterUpserts :=
      members.foldl (fun users phone => upsertUserActive users phone gid now) st.store.users
    let afterDeactivate :=
      existingMembers.foldl
        (fun users m =>
          if m.phoneNumber ∉ members ∧ m.isActive = true then
            updateUserInactive m.phoneNumber gid now users
          else users)
        afterUpserts
    { st with store := { st.store with users := afterDeactivate } }
  else st

/-- Models `GroupService.handleMembersAdded`: upsert each identifier active. -/
def handleMembersAdded (st : ServiceState) (gid : String) (members : List String)
    (now : Nat) : ServiceState :=
  if isMonitored st gid then
    let users := members.foldl (fun users phone => upsertUserActive users phone gid now) st.store.users
    { st with store := { st.store with users := users } }
  else st

/-- Models `GroupService.handleMembersRemoved`: set each identifier inactive
unconditionally; the write is an update without upsert. -/
def handleMembersRemoved (st : ServiceState) (gid : String) (members : List String)
    (now : Nat) : ServiceState :=
  if isMonitored st gid then
    let users := members.foldl (fun users phone => updateUserInactive phone gid now users) st.store.users
    { st with store := { st.store with users := users } }
  else st

/- ------------------------------------------------------------------ -/
/- Status reporter                                                    -/
/- ------------------------------------------------------------------ -/

/-- Models `User.countDocuments({ groupId })`. -/
def countUsers (s : Store) (gid : String) : Nat :=
  (s.users.filter (fun u => decide (u.groupId = gid))).length

/-- Models `User.countDocuments({ groupId, isActive: true })`. -/
def countActiveUsers (s : Store) (gid : String) : Nat :=
  (s.users.filter (fun u => decide (u.groupId = gid) && u.isActive)).length

/-- One entry of `IDatabaseStatus.groupDetails`. -/
structure GroupDetail where
  name : String
  id : String
  containsTargetKeyword : Bool
  totalMembers : Nat
  activeMembers : Nat
  inactiveMembers : Nat
deriving DecidableEq, Repr

/-- The aggregate returned by `GroupService.getDatabaseStatus`. -/
structure IDatabaseStatus where
  totalGroups : Nat
  targetGroups : Nat
  forceMonitoredGroups : Nat
  groupDetails : List GroupDetail
deriving DecidableEq, Repr

/-- The per-group body of the `getDatabaseStatus` loop: the two count
queries, the keyword re-check on the stored name (`group.name || ''`),
and the detail entry (`group.name || 'Unknown group name'`). -/
def groupDetailOf (s : Store) (g : GroupRec) : GroupDetail :=
  let totalMembers := countUsers s g.groupId
  let activeMembers := countActiveUsers s g.groupId
  { name := jsOrStr g.name "Unknown group name"
  , id := g.groupId
  , containsTargetKeyword := isTargetGroup (jsOrStr g.name "")
  , totalMembers := totalMembers
  , activeMembers := activeMembers
  , inactiveMembers := totalMembers - activeMembers }

/-- Models `GroupService.getDatabaseStatus`: loop over the monitored groups,
classifying each as keyword-match or force-monitored and collecting
details. A pure read: the store is not touched. -/
def getDatabaseStatus (s : Store) : IDatabaseStatus :=
  let groups := s.groups.filter (fun g => g.isMonitored)
  let acc : Nat × Nat × List GroupDetail :=
    groups.foldl
      (fun acc g =>
        let d := groupDetailOf s g
        ( (if d.containsTargetKeyword then acc.1 + 1 else acc.1)
        , (if d.containsTargetKeyword then acc.2.1 else acc.2.1 + 1)
        , acc.2.2 ++ [d]))
      (0, 0, [])
  { totalGroups := groups.length
  , targetGroups := acc.1
  , forceMonitoredGroups := acc.2.1
  , groupDetails := acc.2.2 }

/- ------------------------------------------------------------------ -/
/- Event router (WhatsAppController + WhatsAppClient)                 -/
/- ------------------------------------------------------------------ -/

/-- The slice of baileys `GroupMetadata` the handlers read: the display
name and the participant JIDs (`metadata.participants.map(p => p.id)`). -/
structure GroupMetadata where
  subject : String
  participants : List String
deriving DecidableEq, Repr

/-- The slice of a baileys message the router reads. `hasContent` models
the `message.message` falsy guard; `conversation` and `extendedText`
model the two plain-text body fields. -/
structure WAMessage where
  remoteJid : Option String
  fromMe : Bool
  hasContent : Bool
  conversation : Option String
  extendedText : Option String
deriving DecidableEq, Repr

/-- Models `message.message.conversation || message.message.extendedTextMessage?.text || ''`. -/
def messageText (m : WAMessage) : String :=
  jsOrStr m.conversation (jsOrStr m.extendedText "")

/-- One entry of a `groups.update` event (both fields may be absent). -/
structure GroupUpdate where
  id : Option String
  subject : Option String
deriving DecidableEq, Repr

/-- One entry of a `groups.upsert` event. -/
structure UpsertGroup where
  id : String
  subject : String
  participants : Option (List String)
deriving DecidableEq, Repr

/-- Models `WhatsAppController.handleHiCommand`: fetch metadata (the client
wrapper returns `none` on error), and only when the name matches the
keyword: register the group and reconcile the roster. -/
def handleHiCommand (st : ServiceState) (jid : String)
    (oracle : String → Option GroupMetadata) (now : Nat) : ServiceState :=
  match oracle jid with
  | none => st
  | some md =>
    if isTargetGroup md.subject then
      syncGroupMembers (addGroupToMonitored st jid (some md.subject) now) jid md.participants now
    else st

/-- Models `WhatsAppController.handleSyncCommand`: fetch metadata, register the
group unconditionally (no keyword check), and reconcile the roster. -/
def handleSyncCommand (st : ServiceState) (jid : String)
    (oracle : String → Option GroupMetadata) (now : Nat) : ServiceState :=
  match oracle jid with
  | none => st
  | some md =>
    syncGroupMembers (addGroupToMonitored st jid (some md.subject) now) jid md.participants now

/-- The body of the `handleMessagesUpsert` loop for one message: the
three sequential command checks (`Hi!` / `sync` in a group, `check`
anywhere); the `check` command only reads and replies. -/
def processMessage (oracle : String → Option GroupMetadata) (now : Nat)
    (st : ServiceState) (m : WAMessage) : ServiceState :=
  if m.hasContent = false then st
  else
    match m.remoteJid with
    | none => st
    | some jid =>
      let text := messageText m
      let st1 :=
        if m.fromMe = true ∧ text = "Hi!" ∧ isJidGroup jid = true then
          handleHiCommand st jid oracle now
        else st
      let st2 :=
        if m.fromMe = true ∧ text = "sync" ∧ isJidGroup jid = true then
          handleSyncCommand st1 jid oracle now
        else st1
      let st3 :=
        if m.fromMe = true ∧ text = "check" then st2
        else st2
      st3

/-- Models `WhatsAppController.handleGroupParticipantsUpdate`: for a monitored
group apply the incremental change; for an unmonitored group fetch the
metadata and, when the name matches the keyword, register, reconcile the
full roster, and then apply the incremental change. -/
def handleGroupParticipantsUpdate (oracle : String → Option GroupMetadata) (now : Nat)
    (st : ServiceState) (gid : String) (participants : List String) (action : String) :
    ServiceState :=
  if isMonitored st gid then
    if action = "add" then handleMembersAdded st gid participants now
    else if action = "remove" then handleMembersRemoved st gid participants now
    else st
  else
    match oracle gid with
    | none => st
    | some md =>
      if isTargetGroup md.subject then
        let st1 := addGroupToMonitored st gid (some md.subject) now
        let st2 := syncGroupMembers st1 gid md.participants now
        if action = "add" then handleMembersAdded st2 gid participants now
        else if action = "remove" then handleMembersRemoved st2 gid participants now
        else st2
      else st

/-- The body of the `handleGroupsUpdate` loop for one update entry:
falsy guards on `update.id` and `update.subject`, then the monitored
rename path (name refreshed via `addGroupToMonitored`, warning logged
when the new name no longer matches, monitoring kept) or the
unmonitored-but-now-matching path (fetch metadata, register, sync). -/
def handleGroupsUpdateOne (oracle : String → Option GroupMetadata) (now : Nat)
    (st : ServiceState) (u : GroupUpdate) : ServiceState :=
  match u.id with
  | none => st
  | some gid =>
    if gid = "" then st
    else
      match u.subject with
      | none => st
      | some s =>
        if s = "" then st
        else
          if isMonitored st gid then
            addGroupToMonitored st gid (some s) now
          else if isTargetGroup s then
            match oracle gid with
            | none => st
            | some md =>
              syncGroupMembers (addGroupToMonitored st gid (some s) now) gid md.participants now
          else st

/-- The body of the `handleGroupsUpsert` loop for one new group: when
the name matches the keyword, register, and sync when a non-empty
participant list is supplied. -/
def handleGroupsUpsertOne (now : Nat) (st : ServiceState) (g : UpsertGroup) : ServiceState :=
  if isTargetGroup g.subject then
    let st1 := addGroupToMonitored st g.id (some g.subject) now
    match g.participants with
    | some ps => if 0 < ps.length then syncGroupMembers st1 g.id ps now else st1
    | none => st1
  else st

/-- Models `WhatsAppClient.fetchAndMonitorTargetGroups`: on connection open,
enumerate all participating groups and register+sync every keyword
match. -/
def fetchAndMonitorTargetGroups (st : ServiceState)
    (allGroups : List (String × GroupMetadata)) (now : Nat) : ServiceState :=
  allGroups.foldl
    (fun s p =>
      if isTargetGroup p.2.subject then
        syncGroupMembers (addGroupToMonitored s p.1 (some p.2.subject) now) p.1 p.2.participants now
      else s)
    st

/-- The five inbound event streams dispatched by
`WhatsAppClient.registerEventListeners`. A connection-open event carries
the result of `groupFetchAllParticipating`; a close event only drives
reconnect/logout logic and touches neither the store nor the cache. -/
inductive WAEvent where
  | participantsUpdate (gid : String) (participants : List String) (action : String)
  | groupsUpdate (updates : List GroupUpdate)
  | groupsUpsert (groups : List UpsertGroup)
  | messagesUpsert (messages : List WAMessage)
  | connectionOpen (allGroups : List (String × GroupMetadata))
  | connectionClose (loggedOut : Bool)
deriving Repr

/-- The event dispatch: each stream's controller handler. -/
def handleEvent (oracle : String → Option GroupMetadata) (now : Nat)
    (st : ServiceState) : WAEvent → ServiceState
  | .participantsUpdate gid ps a => handleGroupParticipantsUpdate oracle now st gid ps a
  | .groupsUpdate us => us.foldl (handleGroupsUpdateOne oracle now) st
  | .groupsUpsert gs => gs.foldl (handleGroupsUpsertOne now) st
  | .messagesUpsert ms => ms.foldl (processMessage oracle now) st
  | .connectionOpen gs => fetchAndMonitorTargetGroups st gs now
  | .connectionClose _ => st

/- ------------------------------------------------------------------ -/
/- Error layer: store faults and try/catch structure                  -/
/- ------------------------------------------------------------------ -/

/-- Fault flags for the store and transport primitives: a set flag makes
every call of that primitive throw. Metadata fetches are absent because
`WhatsAppClient.getGroupMetadata` catches internally and returns `null`
(already modelled by the `Option` oracle), and `sendMessage` likewise
swallows its own errors. -/
structure Faults where
  groupWrite : Bool
  userWrite : Bool
  userRead : Bool
  groupRead : Bool
  fetchAll : Bool
deriving DecidableEq, Repr

/-- Result of a fallible handler step: a thrown error carries the log
message and the state reached when the throw happened, so an enclosing
`catch` resumes from that state. -/
def ERes : Type := Except (String × ServiceState) ServiceState

/-- Sequencing of fallible steps (an uncaught error aborts the rest, as
an exception aborts the remainder of an `async` handler). -/
def bindE (r : ERes) (k : ServiceState → ERes) : ERes :=
  match r with
  | .error e => .error e
  | .ok s => k s

/-- A `catch` block that only logs: resume with the carried state. -/
def catchToOk (r : ERes) : ServiceState :=
  match r with
  | .error e => e.2
  | .ok s => s

/-- Did an exception escape? -/
def escaped (r : ERes) : Bool :=
  match r with
  | .error _ => true
  | .ok _ => false

/-- Models `GroupService.addGroupToMonitored` with faults: its `catch` logs and
rethrows, so a group-write fault surfaces to the caller with the state
unchanged (the single upsert is atomic). -/
def addGroupToMonitoredE (f : Faults) (st : ServiceState) (gid : String)
    (gname : Option String) (now : Nat) : ERes :=
  if f.groupWrite = true then .error ("Error adding group to monitored list", st)
  else .ok (addGroupToMonitored st gid gname now)

/-- Models `GroupService.syncGroupMembers` with faults: `User.find` runs first,
then the upsert loop (first write throws before mutating anything), then
the deactivation loop (reached only when the upsert loop ran no write,
i.e. `members = []`). Its `catch` rethrows. -/
def syncGroupMembersE (f : Faults) (st : ServiceState) (gid : String)
    (members : List String) (now : Nat) : ERes :=
  if isMonitored st gid then
    if f.userRead = true then .error ("Error syncing group members", st)
    else if f.userWrite = true ∧ members ≠ [] then
      .error ("Error syncing group members", st)
    else if f.userWrite = true ∧
        (∃ u ∈ st.store.users.filter (fun v : UserRec => decide (v.groupId = gid)),
          u.phoneNumber ∉ members ∧ u.isActive = true) then
      .error ("Error syncing group members", st)
    else .ok (syncGroupMembers st gid members now)
  else .ok st

/-- Models `GroupService.handleMembersAdded` with faults: the first upsert of a
non-empty list throws; the `catch` rethrows. -/
def handleMembersAddedE (f : Faults) (st : ServiceState) (gid : String)
    (members : List String) (now : Nat) : ERes :=
  if isMonitored st gid then
    if f.userWrite = true ∧ members ≠ [] then .error ("Error adding members", st)
    else .ok (handleMembersAdded st gid members now)
  else .ok st

/-- Models `GroupService.handleMembersRemoved` with faults; the `catch`
rethrows. -/
def handleMembersRemovedE (f : Faults) (st : ServiceState) (gid : String)
    (members : List String) (now : Nat) : ERes :=
  if isMonitored st gid then
    if f.userWrite = true ∧ members ≠ [] then
      .error ("Error marking members as inactive", st)
    else .ok (handleMembersRemoved st gid members now)
  else .ok st

/-- Models `handleHiCommand` with faults: the whole body is inside `try`, and
the `catch` only logs, so no error escapes. -/
def handleHiCommandE (f : Faults) (st : ServiceState) (jid : String)
    (oracle : String → Option GroupMetadata) (now : Nat) : ServiceState :=
  match oracle jid with
  | none => st
  | some md =>
    if isTargetGroup md.subject then
      catchToOk (bindE (addGroupToMonitoredE f st jid (some md.subject) now)
        (fun s1 => syncGroupMembersE f s1 jid md.participants now))
    else st

/-- Models `handleSyncCommand` with faults: fully wrapped in `try`/`catch`. -/
def handleSyncCommandE (f : Faults) (st : ServiceState) (jid : String)
    (oracle : String → Option GroupMetadata) (now : Nat) : ServiceState :=
  match oracle jid with
  | none => st
  | some md =>
    catchToOk (bindE (addGroupToMonitoredE f st jid (some md.subject) now)
      (fun s1 => syncGroupMembersE f s1 jid md.participants now))

/-- Models `handleCheckCommand` with faults: the status read may throw
(`groupRead`/`userRead`), but the `catch` only logs and the command
never mutates state, so the state is returned unchanged either way. -/
def handleCheckCommandE (_f : Faults) (st : ServiceState) : ServiceState :=
  st

/-- The `handleMessagesUpsert` loop body with faults: every command
handler swallows its own errors, so the body is total. -/
def processMessageE (f : Faults) (oracle : String → Option GroupMetadata) (now : Nat)
    (st : ServiceState) (m : WAMessage) : ServiceState :=
  if m.hasContent = false then st
  else
    match m.remoteJid with
    | none => st
    | some jid =>
      let text := messageText m
      let st1 :=
        if m.fromMe = true ∧ text = "Hi!" ∧ isJidGroup jid = true then
          handleHiCommandE f st jid oracle now
        else st
      let st2 :=
        if m.fromMe = true ∧ text = "sync" ∧ isJidGroup jid = true then
          handleSyncCommandE f st1 jid oracle now
        else st1
      let st3 :=
        if m.fromMe = true ∧ text = "check" then handleCheckCommandE f st2
        else st2
      st3

/-- Models `handleGroupParticipantsUpdate` with faults. The unmonitored branch
is wrapped in `try`/`catch` (errors logged and discarded); the monitored
branch calls the rethrowing service methods with no `catch`, so their
errors escape the handler. -/
def handleGroupParticipantsUpdateE (f : Faults) (oracle : String → Option GroupMetadata)
    (now : Nat) (st : ServiceState) (gid : String) (participants : List String)
    (action : String) : ERes :=
  if isMonitored st gid then
    if action = "add" then handleMembersAddedE f st gid participants now
    else if action = "remove" then handleMembersRemovedE f st gid participants now
    else .ok st
  else
    match oracle gid with
    | none => .ok st
    | some md =>
      if isTargetGroup md.subject then
        .ok (catchToOk (bindE (addGroupToMonitoredE f st gid (some md.subject) now)
          (fun s1 => bindE (syncGroupMembersE f s1 gid md.participants now)
            (fun s2 =>
              if action = "add" then handleMembersAddedE f s2 gid participants now
              else if action = "remove" then handleMembersRemovedE f s2 gid participants now
              else .ok s2))))
      else .ok st

/-- The `handleGroupsUpdate` loop body with faults: the monitored rename
path calls `addGroupToMonitored` with no `catch` (errors escape); the
unmonitored-but-matching path is wrapped in `try`/`catch`. -/
def handleGroupsUpdateOneE (f : Faults) (oracle : String → Option GroupMetadata)
    (now : Nat) (st : ServiceState) (u : GroupUpdate) : ERes :=
  match u.id with
  | none => .ok st
  | some gid =>
    if gid = "" then .ok st
    else
      match u.subject with
      | none => .ok st
      | some s =>
        if s = "" then .ok st
        else
          if isMonitored st gid then
            addGroupToMonitoredE f st gid (some s) now
          else if isTargetGroup s then
            match oracle gid with
            | none => .ok st
            | some md =>
              .ok (catchToOk (bindE (addGroupToMonitoredE f st gid (some s) now)
                (fun s1 => syncGroupMembersE f s1 gid md.participants now)))
          else .ok st

/-- The `handleGroupsUpdate` loop with faults: an escaping error aborts
the remaining iterations. -/
def handleGroupsUpdateE (f : Faults) (oracle : String → Option GroupMetadata)
    (now : Nat) (st : ServiceState) : List GroupUpdate → ERes
  | [] => .ok st
  | u :: us =>
    bindE (handleGroupsUpdateOneE f oracle now st u)
      (fun s1 => handleGroupsUpdateE f oracle now s1 us)

/-- The `handleGroupsUpsert` loop body with faults: no `try`/`catch` at
all, so service errors escape. -/
def handleGroupsUpsertOneE (f : Faults) (now : Nat) (st : ServiceState)
    (g : UpsertGroup) : ERes :=
  if isTargetGroup g.subject then
    bindE (addGroupToMonitoredE f st g.id (some g.subject) now)
      (fun s1 =>
        match g.participants with
        | some ps => if 0 < ps.length then syncGroupMembersE f s1 g.id ps now else .ok s1
        | none => .ok s1)
  else .ok st

/-- The `handleGroupsUpsert` loop with faults. -/
def handleGroupsUpsertE (f : Faults) (now : Nat) (st : ServiceState) :
    List UpsertGroup → ERes
  | [] => .ok st
  | g :: gs =>
    bindE (handleGroupsUpsertOneE f now st g) (fun s1 => handleGroupsUpsertE f now s1 gs)

/-- The `fetchAndMonitorTargetGroups` loop with faults (inside `try`). -/
def monitorLoopE (f : Faults) (now : Nat) : List (String × GroupMetadata) →
    ServiceState → ERes
  | [], st => .ok st
  | p :: rest, st =>
    if isTargetGroup p.2.subject then
      bindE (addGroupToMonitoredE f st p.1 (some p.2.subject) now)
        (fun s1 => bindE (syncGroupMembersE f s1 p.1 p.2.participants now)
          (fun s2 => monitorLoopE f now rest s2))
    else monitorLoopE f now rest st

/-- Models `fetchAndMonitorTargetGroups` with faults: the enumeration and the
whole loop are wrapped in `try`/`catch` that only logs. -/
def fetchAndMonitorTargetGroupsE (f : Faults) (st : ServiceState)
    (allGroups : List (String × GroupMetadata)) (now : Nat) : ServiceState :=
  if f.fetchAll = true then st
  else catchToOk (monitorLoopE f now allGroups st)

/-- The event dispatch with faults: `registerEventListeners` installs
`async` callbacks that `await` the controller handler with no `catch`,
so whatever the handler throws escapes the dispatch. -/
def handleEventE (f : Faults) (oracle : String → Option GroupMetadata) (now : Nat)
    (st : ServiceState) : WAEvent → ERes
  | .participantsUpdate gid ps a => handleGroupParticipantsUpdateE f oracle now st gid ps a
  | .groupsUpdate us => handleGroupsUpdateE f oracle now st us
  | .groupsUpsert gs => handleGroupsUpsertE f now st gs
  | .messagesUpsert ms => .ok (ms.foldl (processMessageE f oracle now) st)
  | .connectionOpen gs => .ok (fetchAndMonitorTargetGroupsE f st gs now)
  | .connectionClose _ => .ok st

/- ------------------------------------------------------------------ -/
/- Concrete scenario data                                             -/
/- ------------------------------------------------------------------ -/

/-- The spec's status scenario: one keyword-matching monitored group
with 2 active and 1 inactive member, and one force-monitored group
(name without the keyword) with no members. -/
def scenarioStore : Store :=
  { groups :=
      [ ⟨"g1", true, some "neol friends", 0⟩
      , ⟨"g2", true, some "Random Chat", 0⟩ ]
  , users :=
      [ ⟨"111", "g1", true, 0⟩
      , ⟨"222", "g1", true, 0⟩
      , ⟨"333", "g1", false, 0⟩ ] }

/- ------------------------------------------------------------------ -/
/- Helper lemmas                                                      -/
/- ------------------------------------------------------------------ -/

lemma updateUserInactive_eq_self (phone gid : String) (now : Nat) (l : List UserRec)
    (h : ∀ u ∈ l, ¬(u.phoneNumber = phone ∧ u.groupId = gid)) :
    updateUserInactive phone gid now l = l := by
  induction l with
  | nil => rfl
  | cons a l ih =>
    rw [updateUserInactive, if_neg (h a (List.mem_cons_self a l))]
    rw [ih (fun u hu => h u (List.mem_cons_of_mem a hu))]

lemma updateUserActive_append (l1 l2 : List UserRec) (phone gid : String) (now : Nat)
    (h : ∀ u ∈ l1, ¬(u.phoneNumber = phone ∧ u.groupId = gid)) :
    updateUserActive phone gid now (l1 ++ l2) = l1 ++ updateUserActive phone gid now l2 := by
  induction l1 with
  | nil => simp
  | cons a l ih =>
    rw [List.cons_append, updateUserActive, if_neg (h a (List.mem_cons_self a l))]
    rw [ih (fun u hu => h u (List.mem_cons_of_mem a hu)), List.cons_append]

lemma updateUserInactive_append (l1 l2 : List UserRec) (phone gid : String) (now : Nat)
    (h : ∀ u ∈ l1, ¬(u.phoneNumber = phone ∧ u.groupId = gid)) :
    updateUserInactive phone gid now (l1 ++ l2) = l1 ++ updateUserInactive phone gid now l2 := by
  induction l1 with
  | nil => simp
  | cons a l ih =>
    rw [List.cons_append, updateUserInactive, if_neg (h a (List.mem_cons_self a l))]
    rw [ih (fun u hu => h u (List.mem_cons_of_mem a hu)), List.cons_append]

lemma exists_match_append (l1 l2 : List UserRec) (phone gid : String)
    (h : ∀ u ∈ l1, ¬(u.phoneNumber = phone ∧ u.groupId = gid)) :
    (∃ u ∈ l1 ++ l2, u.phoneNumber = phone ∧ u.groupId = gid) ↔
      (∃ u ∈ l2, u.phoneNumber = phone ∧ u.groupId = gid) := by
  constructor
  · rintro ⟨u, hu, hp⟩
    rcases List.mem_append.1 hu with h1 | h2
    · exact absurd hp (h u h1)
    · exact ⟨u, h2, hp⟩
  · rintro ⟨u, hu, hp⟩
    exact ⟨u, List.mem_append.2 (Or.inr hu), hp⟩

lemma upsertUserActive_append (l1 l2 : List UserRec) (phone gid : String) (now : Nat)
    (h : ∀ u ∈ l1, ¬(u.phoneNumber = phone ∧ u.groupId = gid)) :
    upsertUserActive (l1 ++ l2) phone gid now = l1 ++ upsertUserActive l2 phone gid now := by
  unfold upsertUserActive
  by_cases hex : ∃ u ∈ l2, u.phoneNumber = phone ∧ u.groupId = gid
  · rw [if_pos ((exists_match_append l1 l2 phone gid h).2 hex), if_pos hex]
    exact updateUserActive_append l1 l2 phone gid now h
  · rw [if_neg (fun hc => hex ((exists_match_append l1 l2 phone gid h).1 hc)), if_neg hex]
    exact List.append_assoc l1 l2 _

/- ------------------------------------------------------------------ -/
/- Claim theorems                                                     -/
/- ------------------------------------------------------------------ -/

/-- C2: the keyword predicate agrees everywhere with the specified
contract — true iff the lower-cased name contains the lower-cased
configured keyword — and returns false on an empty (absent) name. -/
theorem isTargetGroup_spec :
    (∀ gname : String, isTargetGroup gname = isTargetGroupSpec gname)
      ∧ isTargetGroup "" = false := by
  constructor
  · intro gname
    by_cases h : gname = ""
    · subst h; decide
    · unfold isTargetGroup isTargetGroupSpec
      rw [if_neg h]
      have hk : strToLower targetKeyword = targetKeyword := by decide
      rw [hk]
  · decide

/-- C4: for a group absent from the in-memory monitored set, the
reconciler and both incremental handlers leave the whole state (store
and cache) unchanged. -/
theorem unmonitored_handlers_noop (st : ServiceState) (gid : String)
    (ms : List String) (now : Nat) (h : gid ∉ st.monitoredGroupsCache) :
    syncGroupMembers st gid ms now = st
      ∧ handleMembersAdded st gid ms now = st
      ∧ handleMembersRemoved st gid ms now = st := by
  have hb : isMonitored st gid = false := by simp [isMonitored, h]
  refine ⟨?_, ?_, ?_⟩ <;>
    simp [syncGroupMembers, handleMembersAdded, handleMembersRemoved, hb]

/-- Witness for C4 at a concrete unmonitored state. -/
theorem unmonitored_handlers_noop_witness :
    "g" ∉ (⟨⟨[], []⟩, []⟩ : ServiceState).monitoredGroupsCache
      ∧ (syncGroupMembers ⟨⟨[], []⟩, []⟩ "g" ["x"] 5 = ⟨⟨[], []⟩, []⟩
        ∧ handleMembersAdded ⟨⟨[], []⟩, []⟩ "g" ["x"] 5 = ⟨⟨[], []⟩, []⟩
        ∧ handleMembersRemoved ⟨⟨[], []⟩, []⟩ "g" ["x"] 5 = ⟨⟨[], []⟩, []⟩) :=
  ⟨by decide, unmonitored_handlers_noop ⟨⟨[], []⟩, []⟩ "g" ["x"] 5 (by decide)⟩

/-- C10: removing a member that has no membership record for the group
creates nothing — the deactivating write is an update without upsert,
so the whole state is unchanged. -/
theorem handleMembersRemoved_no_create (st : ServiceState) (gid X : String) (now : Nat)
    (hmon : gid ∈ st.monitoredGroupsCache)
    (habs : ∀ u ∈ st.store.users, ¬(u.phoneNumber = X ∧ u.groupId = gid)) :
    handleMembersRemoved st gid [X] now = st := by
  have hb : isMonitored st gid = true := by simp [isMonitored, hmon]
  simp [handleMembersRemoved, hb, List.foldl,
    updateUserInactive_eq_self X gid now _ habs]

/-- Witness for C10: a monitored group, a store holding a record for a
different identifier only. -/
theorem handleMembersRemoved_no_create_witness :
    "g" ∈ (⟨⟨[], [⟨"y", "g", true, 0⟩]⟩, ["g"]⟩ : ServiceState).monitoredGroupsCache
      ∧ (∀ u ∈ (⟨⟨[], [⟨"y", "g", true, 0⟩]⟩, ["g"]⟩ : ServiceState).store.users,
          ¬(u.phoneNumber = "x" ∧ u.groupId = "g"))
      ∧ handleMembersRemoved ⟨⟨[], [⟨"y", "g", true, 0⟩]⟩, ["g"]⟩ "g" ["x"] 5
          = ⟨⟨[], [⟨"y", "g", true, 0⟩]⟩, ["g"]⟩ :=
  ⟨by decide, by decide,
    handleMembersRemoved_no_create ⟨⟨[], [⟨"y", "g", true, 0⟩]⟩, ["g"]⟩ "g" "x" 5
      (by decide) (by decide)⟩

lemma updateGroupMonitored_absorb (gid : String) (nm : Option String) (t1 t2 : Nat)
    (l : List GroupRec) :
    updateGroupMonitored gid nm t2 (updateGroupMonitored gid nm t1 l)
      = updateGroupMonitored gid nm t2 l := by
  induction l with
  | nil => rfl
  | cons g gs ih =>
    by_cases h : g.groupId = gid
    · simp only [updateGroupMonitored, if_pos h]
      cases nm <;> simp [updateGroupMonitored]
    · simp only [updateGroupMonitored, if_neg h, ih]

lemma updateGroupMonitored_map_groupId (gid : String) (nm : Option String) (now : Nat)
    (l : List GroupRec) :
    (updateGroupMonitored gid nm now l).map (fun g => g.groupId)
      = l.map (fun g => g.groupId) := by
  induction l with
  | nil => rfl
  | cons g gs ih =>
    by_cases h : g.groupId = gid
    · simp [updateGroupMonitored, h]
    · simp [updateGroupMonitored, h, ih]

lemma exists_gid_update (gid : String) (nm : Option String) (now : Nat)
    (l : List GroupRec) (gid2 : String) :
    (∃ g ∈ updateGroupMonitored gid nm now l, g.groupId = gid2)
      ↔ (∃ g ∈ l, g.groupId = gid2) := by
  have key : ∀ m : List GroupRec,
      (∃ g ∈ m, g.groupId = gid2) ↔ gid2 ∈ m.map (fun g => g.groupId) := by
    intro m; simp [List.mem_map]
  rw [key, key, updateGroupMonitored_map_groupId]

lemma updateGroupMonitored_append (l1 l2 : List GroupRec) (gid : String)
    (nm : Option String) (now : Nat) (h : ∀ g ∈ l1, g.groupId ≠ gid) :
    updateGroupMonitored gid nm now (l1 ++ l2)
      = l1 ++ updateGroupMonitored gid nm now l2 := by
  induction l1 with
  | nil => simp
  | cons a l ih =>
    have ha : ¬(a.groupId = gid) := h a (List.mem_cons_self a l)
    simp only [List.cons_append, updateGroupMonitored, if_neg ha, List.append_eq]
    rw [ih (fun g hg => h g (List.mem_cons_of_mem a hg))]

lemma upsertGroupMonitored_absorb (l : List GroupRec) (gid : String)
    (nm : Option String) (t1 t2 : Nat) :
    upsertGroupMonitored (upsertGroupMonitored l gid nm t1) gid nm t2
      = upsertGroupMonitored l gid nm t2 := by
  unfold upsertGroupMonitored
  by_cases hex : ∃ g ∈ l, g.groupId = gid
  · rw [if_pos hex, if_pos ((exists_gid_update gid nm t1 l gid).2 hex), if_pos hex]
    exact updateGroupMonitored_absorb gid nm t1 t2 l
  · rw [if_neg hex, if_neg hex]
    have hnew : (∃ g ∈ l ++ [({ groupId := gid, isMonitored := true, name := nm, updatedAt := t1 } : GroupRec)], g.groupId = gid) := by
      refine ⟨_, List.mem_append.2 (Or.inr (List.mem_singleton.2 rfl)), rfl⟩
    rw [if_pos hnew]
    rw [updateGroupMonitored_append l _ gid nm t2 (fun g hg hc => hex ⟨g, hg, hc⟩)]
    cases nm <;> simp [updateGroupMonitored]

lemma updateGroupMonitored_strip (gid : String) (nm : Option String) (t1 t2 : Nat)
    (l : List GroupRec) :
    (updateGroupMonitored gid nm t1 l).map stripTs
      = (updateGroupMonitored gid nm t2 l).map stripTs := by
  induction l with
  | nil => rfl
  | cons g gs ih =>
    by_cases h : g.groupId = gid
    · simp [updateGroupMonitored, h, stripTs]
    · simp [updateGroupMonitored, h, ih]

lemma upsertGroupMonitored_strip (l : List GroupRec) (gid : String)
    (nm : Option String) (t1 t2 : Nat) :
    (upsertGroupMonitored l gid nm t1).map stripTs
      = (upsertGroupMonitored l gid nm t2).map stripTs := by
  unfold upsertGroupMonitored
  by_cases hex : ∃ g ∈ l, g.groupId = gid
  · rw [if_pos hex, if_pos hex]
    exact updateGroupMonitored_strip gid nm t1 t2 l
  · rw [if_neg hex, if_neg hex]
    simp [stripTs]

lemma monitoredIds_congr (l1 : List GroupRec) :
    ∀ l2 : List GroupRec, l1.map stripTs = l2.map stripTs →
      (l1.filter (fun g => g.isMonitored)).map (fun g => g.groupId)
        = (l2.filter (fun g => g.isMonitored)).map (fun g => g.groupId) := by
  induction l1 with
  | nil =>
    intro l2 h
    cases l2 with
    | nil => rfl
    | cons b bs => simp at h
  | cons a as ih =>
    intro l2 h
    cases l2 with
    | nil => simp at h
    | cons b bs =>
      simp only [List.map_cons, List.cons.injEq, stripTs, Prod.mk.injEq] at h
      obtain ⟨⟨hg, hm, _⟩, hrest⟩ := h
      by_cases hmon : a.isMonitored = true
      · simp [List.filter_cons, hmon, hm ▸ hmon, hg, ih bs hrest]
      · simp [List.filter_cons, hmon, hm ▸ hmon, ih bs hrest]

lemma add_cache_mem (st : ServiceState) (gid : String) (nm : Option String) (now : Nat) :
    gid ∈ (addGroupToMonitored st gid nm now).monitoredGroupsCache := by
  unfold addGroupToMonitored
  by_cases h : gid ∈ st.monitoredGroupsCache
  · simp [h]
  · simp [h]

lemma add_cache_superset (st : ServiceState) (gid : String) (nm : Option String)
    (now : Nat) :
    st.monitoredGroupsCache ⊆ (addGroupToMonitored st gid nm now).monitoredGroupsCache := by
  unfold addGroupToMonitored
  by_cases h : gid ∈ st.monitoredGroupsCache
  · simp [h]
  · simp only [if_neg h]
    exact List.subset_append_left _ _

/-- C3: `addGroupToMonitored` twice with identical arguments leaves the
in-memory cache identical and the persisted groups identical up to the
`updatedAt` timestamp (in particular the set of monitored group ids is
the same), and touches no membership record. -/
theorem addGroupToMonitored_idempotent (st : ServiceState) (gid : String)
    (nm : Option String) (now1 now2 : Nat) :
    (addGroupToMonitored (addGroupToMonitored st gid nm now1) gid nm now2).monitoredGroupsCache
        = (addGroupToMonitored st gid nm now1).monitoredGroupsCache
      ∧ (addGroupToMonitored (addGroupToMonitored st gid nm now1) gid nm now2).store.groups.map stripTs
        = (addGroupToMonitored st gid nm now1).store.groups.map stripTs
      ∧ ((addGroupToMonitored (addGroupToMonitored st gid nm now1) gid nm now2).store.groups.filter
            (fun g => g.isMonitored)).map (fun g => g.groupId)
        = ((addGroupToMonitored st gid nm now1).store.groups.filter
            (fun g => g.isMonitored)).map (fun g => g.groupId)
      ∧ (addGroupToMonitored (addGroupToMonitored st gid nm now1) gid nm now2).store.users
        = (addGroupToMonitored st gid nm now1).store.users := by
  have hcache :
      (addGroupToMonitored (addGroupToMonitored st gid nm now1) gid nm now2).monitoredGroupsCache
        = (addGroupToMonitored st gid nm now1).monitoredGroupsCache := by
    have hmem := add_cache_mem st gid nm now1
    show (if gid ∈ (addGroupToMonitored st gid nm now1).monitoredGroupsCache then _ else _) = _
    rw [if_pos hmem]
  have hgroups :
      (addGroupToMonitored (addGroupToMonitored st gid nm now1) gid nm now2).store.groups.map stripTs
        = (addGroupToMonitored st gid nm now1).store.groups.map stripTs := by
    show (upsertGroupMonitored (upsertGroupMonitored st.store.groups gid nm now1) gid nm now2).map stripTs
        = (upsertGroupMonitored st.store.groups gid nm now1).map stripTs
    rw [upsertGroupMonitored_absorb]
    exact upsertGroupMonitored_strip st.store.groups gid nm now2 now1
  exact ⟨hcache, hgroups, monitoredIds_congr _ _ hgroups, rfl⟩

lemma mem_updateGroupMonitored_of_ne (l : List GroupRec) (r : GroupRec) (gid : String)
    (nm : Option String) (now : Nat) (hr : r ∈ l) (hne : r.groupId ≠ gid) :
    r ∈ updateGroupMonitored gid nm now l := by
  induction l with
  | nil => cases hr
  | cons a as ih =>
    rcases List.mem_cons.1 hr with h1 | h2
    · subst h1
      simp only [updateGroupMonitored, if_neg hne]
      exact List.mem_cons_self _ _
    · by_cases ha : a.groupId = gid
      · simp only [updateGroupMonitored, if_pos ha]
        exact List.mem_cons_of_mem _ h2
      · simp only [updateGroupMonitored, if_neg ha]
        exact List.mem_cons_of_mem _ (ih h2)

lemma mem_upsertGroupMonitored_of_ne (l : List GroupRec) (r : GroupRec) (gid : String)
    (nm : Option String) (now : Nat) (hr : r ∈ l) (hne : r.groupId ≠ gid) :
    r ∈ upsertGroupMonitored l gid nm now := by
  unfold upsertGroupMonitored
  by_cases hex : ∃ g ∈ l, g.groupId = gid
  · rw [if_pos hex]
    exact mem_updateGroupMonitored_of_ne l r gid nm now hr hne
  · rw [if_neg hex]
    exact List.mem_append.2 (Or.inl hr)

lemma mem_setGroupUnmonitored_of_ne (l : List GroupRec) (r : GroupRec) (gid : String)
    (hr : r ∈ l) (hne : r.groupId ≠ gid) :
    r ∈ setGroupUnmonitored gid l := by
  induction l with
  | nil => cases hr
  | cons a as ih =>
    rcases List.mem_cons.1 hr with h1 | h2
    · subst h1
      simp only [setGroupUnmonitored, if_neg hne]
      exact List.mem_cons_self _ _
    · by_cases ha : a.groupId = gid
      · simp only [setGroupUnmonitored, if_pos ha]
        exact List.mem_cons_of_mem _ h2
      · simp only [setGroupUnmonitored, if_neg ha]
        exact List.mem_cons_of_mem _ (ih h2)

lemma updateGroupMonitored_mem_target (l : List GroupRec) (gid : String)
    (nm : Option String) (now : Nat) (hex : ∃ g ∈ l, g.groupId = gid) :
    ∃ g ∈ updateGroupMonitored gid nm now l,
      g.groupId = gid ∧ g.isMonitored = true ∧ g.updatedAt = now
        ∧ (∀ n, nm = some n → g.name = some n) := by
  induction l with
  | nil =>
    obtain ⟨g0, hg0, _⟩ := hex
    cases hg0
  | cons a as ih =>
    by_cases ha : a.groupId = gid
    · cases nm with
      | some n =>
        have hmem : ({ a with groupId := gid, isMonitored := true, name := some n, updatedAt := now } : GroupRec) ∈ updateGroupMonitored gid (some n) now (a :: as) := by
          simp only [updateGroupMonitored, if_pos ha]
          exact List.mem_cons_self _ _
        exact ⟨_, hmem, rfl, rfl, rfl, fun n2 hn2 => by cases hn2; rfl⟩
      | none =>
        have hmem : ({ a with groupId := gid, isMonitored := true, name := a.name, updatedAt := now } : GroupRec) ∈ updateGroupMonitored gid none now (a :: as) := by
          simp only [updateGroupMonitored, if_pos ha]
          exact List.mem_cons_self _ _
        exact ⟨_, hmem, rfl, rfl, rfl, fun n2 hn2 => Option.noConfusion hn2⟩
    · have hex2 : ∃ g ∈ as, g.groupId = gid := by
        obtain ⟨g0, hg0, hgid⟩ := hex
        rcases List.mem_cons.1 hg0 with h1 | h2
        · exact absurd (h1 ▸ hgid) ha
        · exact ⟨g0, h2, hgid⟩
      obtain ⟨g, hg, hprop⟩ := ih hex2
      refine ⟨g, ?_, hprop⟩
      simp only [updateGroupMonitored, if_neg ha]
      exact List.mem_cons_of_mem _ hg

lemma upsertGroupMonitored_mem_target (l : List GroupRec) (gid : String)
    (nm : Option String) (now : Nat) :
    ∃ g ∈ upsertGroupMonitored l gid nm now,
      g.groupId = gid ∧ g.isMonitored = true ∧ g.updatedAt = now
        ∧ (∀ n, nm = some n → g.name = some n) := by
  unfold upsertGroupMonitored
  by_cases hex : ∃ g ∈ l, g.groupId = gid
  · rw [if_pos hex]
    exact updateGroupMonitored_mem_target l gid nm now hex
  · rw [if_neg hex]
    refine ⟨_, List.mem_append.2 (Or.inr (List.mem_singleton.2 rfl)), rfl, rfl, rfl, ?_⟩
    intro n hn
    simp [hn]

/-- The C9 invariant: every cached group id has a persisted record with
the monitored flag set. -/
def cacheSubsetStore (st : ServiceState) : Prop :=
  ∀ g ∈ st.monitoredGroupsCache,
    ∃ r ∈ st.store.groups, r.groupId = g ∧ r.isMonitored = true

/-- C9: the in-memory monitored set is a subset of the persisted
monitored groups — unconditionally after `loadMonitoredGroups`, and
preserved by `addGroupToMonitored` and `removeGroupFromMonitored`. -/
theorem cache_subset_invariant (st : ServiceState) (gid : String)
    (nm : Option String) (now : Nat) :
    cacheSubsetStore (loadMonitoredGroups st)
      ∧ (cacheSubsetStore st → cacheSubsetStore (addGroupToMonitored st gid nm now))
      ∧ (cacheSubsetStore st → cacheSubsetStore (removeGroupFromMonitored st gid)) := by
  refine ⟨?_, ?_, ?_⟩
  · intro g hg
    simp only [loadMonitoredGroups, List.mem_map] at hg
    obtain ⟨r, hr, hrg⟩ := hg
    have hr' := List.mem_filter.1 hr
    exact ⟨r, hr'.1, hrg, hr'.2⟩
  · intro hinv g hg
    by_cases hgid : g = gid
    · subst hgid
      obtain ⟨r, hr, hprop⟩ := upsertGroupMonitored_mem_target st.store.groups g nm now
      exact ⟨r, hr, hprop.1, hprop.2.1⟩
    · have hg' : g ∈ st.monitoredGroupsCache := by
        by_cases hmem : gid ∈ st.monitoredGroupsCache
        · simpa [addGroupToMonitored, hmem] using hg
        · simp only [addGroupToMonitored, if_neg hmem] at hg
          rcases List.mem_append.1 hg with h1 | h2
          · exact h1
          · exact absurd (List.mem_singleton.1 h2) hgid
      obtain ⟨r, hr, hrg, hrm⟩ := hinv g hg'
      refine ⟨r, ?_, hrg, hrm⟩
      exact mem_upsertGroupMonitored_of_ne st.store.groups r gid nm now hr
        (fun hc => hgid (hrg ▸ hc))
  · intro hinv g hg
    simp only [removeGroupFromMonitored, List.mem_filter, decide_eq_true_eq] at hg
    obtain ⟨hg', hgne⟩ := hg
    obtain ⟨r, hr, hrg, hrm⟩ := hinv g hg'
    refine ⟨r, ?_, hrg, hrm⟩
    exact mem_setGroupUnmonitored_of_ne st.store.groups r gid hr
      (fun hc => hgne (hrg ▸ hc))

/-- Witness for C9 at a concrete state with one monitored group. -/
theorem cache_subset_invariant_witness :
    cacheSubsetStore (loadMonitoredGroups ⟨⟨[⟨"g", true, some "neol grp", 0⟩], []⟩, []⟩)
      ∧ cacheSubsetStore
          (addGroupToMonitored ⟨⟨[⟨"g", true, some "neol grp", 0⟩], []⟩, ["g"]⟩ "h" none 4)
      ∧ cacheSubsetStore
          (removeGroupFromMonitored ⟨⟨[⟨"g", true, some "neol grp", 0⟩], []⟩, ["g"]⟩ "g") := by
  have hbase : cacheSubsetStore ⟨⟨[⟨"g", true, some "neol grp", 0⟩], []⟩, ["g"]⟩ := by
    unfold cacheSubsetStore
    decide
  refine ⟨(cache_subset_invariant ⟨⟨[⟨"g", true, some "neol grp", 0⟩], []⟩, []⟩ "h" none 4).1,
    (cache_subset_invariant ⟨⟨[⟨"g", true, some "neol grp", 0⟩], []⟩, ["g"]⟩ "h" none 4).2.1 hbase,
    (cache_subset_invariant ⟨⟨[⟨"g", true, some "neol grp", 0⟩], []⟩, ["g"]⟩ "g" none 4).2.2 hbase⟩

lemma upsertUserActive_not_found (l : List UserRec) (phone gid : String) (now : Nat)
    (h : ∀ u ∈ l, ¬(u.phoneNumber = phone ∧ u.groupId = gid)) :
    upsertUserActive l phone gid now
      = l ++ [⟨phone, gid, true, now⟩] := by
  unfold upsertUserActive
  rw [if_neg (fun hc => by obtain ⟨u, hu, hp⟩ := hc; exact h u hu hp)]

lemma sync_frame (st : ServiceState) (gid : String) (ms : List String) (now : Nat) :
    (syncGroupMembers st gid ms now).store.groups = st.store.groups
      ∧ (syncGroupMembers st gid ms now).monitoredGroupsCache = st.monitoredGroupsCache := by
  unfold syncGroupMembers
  split <;> exact ⟨rfl, rfl⟩

lemma sync_users_formula (st : ServiceState) (gid : String) (ms : List String) (now : Nat)
    (hmonb : isMonitored st gid = true) :
    (syncGroupMembers st gid ms now).store.users
      = (st.store.users.filter (fun u => decide (u.groupId = gid))).foldl
          (fun users m =>
            if m.phoneNumber ∉ ms ∧ m.isActive = true then
              updateUserInactive m.phoneNumber gid now users
            else users)
          (ms.foldl (fun users phone => upsertUserActive users phone gid now) st.store.users) := by
  simp [syncGroupMembers, hmonb]

/-- C1: two successive full-roster reconciliations for a monitored group
starting from a store with no records for that group. After
`sync(g, [A,B])` then `sync(g, [B,C])`: A is inactive, B and C are
active, every pre-existing record (all for other groups) is untouched,
and no other record exists for the group; a third `sync(g, [B,C])`
refreshes only B and C — the already-inactive A record absent from the
roster is not written again (its timestamp stays at the second sync). -/
theorem syncGroupMembers_two_snapshots
    (st : ServiceState) (gid A B C : String) (now1 now2 now3 : Nat)
    (hmon : gid ∈ st.monitoredGroupsCache)
    (hfresh : ∀ u ∈ st.store.users, u.groupId ≠ gid)
    (hAB : A ≠ B) (hAC : A ≠ C) (hBC : B ≠ C) :
    (syncGroupMembers (syncGroupMembers st gid [A, B] now1) gid [B, C] now2).store.users
        = st.store.users
          ++ [⟨A, gid, false, now2⟩, ⟨B, gid, true, now2⟩, ⟨C, gid, true, now2⟩]
      ∧ (syncGroupMembers (syncGroupMembers st gid [A, B] now1) gid [B, C] now2).store.groups
        = st.store.groups
      ∧ (syncGroupMembers (syncGroupMembers st gid [A, B] now1) gid [B, C] now2).monitoredGroupsCache
        = st.monitoredGroupsCache
      ∧ (syncGroupMembers (syncGroupMembers (syncGroupMembers st gid [A, B] now1) gid [B, C] now2)
            gid [B, C] now3).store.users
        = st.store.users
          ++ [⟨A, gid, false, now2⟩, ⟨B, gid, true, now3⟩, ⟨C, gid, true, now3⟩] := by
  have hno : ∀ p : String, ∀ u ∈ st.store.users, ¬(u.phoneNumber = p ∧ u.groupId = gid) :=
    fun p u hu hc => hfresh u hu hc.2
  have hmonb : isMonitored st gid = true := by
    simp [isMonitored, hmon]
  have hfil1 : st.store.users.filter (fun u => decide (u.groupId = gid)) = [] := by
    rw [List.filter_eq_nil_iff]
    intro u hu
    simpa using hfresh u hu
  -- first sync
  have hupA : upsertUserActive st.store.users A gid now1
      = st.store.users ++ [⟨A, gid, true, now1⟩] :=
    upsertUserActive_not_found _ _ _ _ (hno A)
  have hupB : upsertUserActive (st.store.users ++ [⟨A, gid, true, now1⟩]) B gid now1
      = st.store.users ++ [⟨A, gid, true, now1⟩, ⟨B, gid, true, now1⟩] := by
    rw [upsertUserActive_append _ _ B gid now1 (hno B)]
    rw [upsertUserActive_not_found _ _ _ _ ?_]
    · rfl
    · intro u hu hc
      rw [List.mem_singleton] at hu
      subst hu
      exact hAB hc.1
  have e1 : (syncGroupMembers st gid [A, B] now1).store.users
      = st.store.users ++ [⟨A, gid, true, now1⟩, ⟨B, gid, true, now1⟩] := by
    rw [sync_users_formula st gid [A, B] now1 hmonb, hfil1]
    simp only [List.foldl_cons, List.foldl_nil, hupA, hupB]
  -- second sync
  have hcache1 : (syncGroupMembers st gid [A, B] now1).monitoredGroupsCache
      = st.monitoredGroupsCache := (sync_frame st gid [A, B] now1).2
  have hgroups1 : (syncGroupMembers st gid [A, B] now1).store.groups
      = st.store.groups := (sync_frame st gid [A, B] now1).1
  have hmonb1 : isMonitored (syncGroupMembers st gid [A, B] now1) gid = true := by
    simp [isMonitored, hcache1, hmon]
  have hfil2 : (syncGroupMembers st gid [A, B] now1).store.users.filter
        (fun u => decide (u.groupId = gid))
      = [⟨A, gid, true, now1⟩, ⟨B, gid, true, now1⟩] := by
    rw [e1, List.filter_append, hfil1]
    simp
  have h2B : upsertUserActive
        (st.store.users ++ [⟨A, gid, true, now1⟩, ⟨B, gid, true, now1⟩]) B gid now2
      = st.store.users ++ [⟨A, gid, true, now1⟩, ⟨B, gid, true, now2⟩] := by
    rw [upsertUserActive_append _ _ B gid now2 (hno B)]
    unfold upsertUserActive
    rw [if_pos ⟨⟨B, gid, true, now1⟩, by simp, rfl, rfl⟩]
    simp [updateUserActive, hAB]
  have h2C : upsertUserActive
        (st.store.users ++ [⟨A, gid, true, now1⟩, ⟨B, gid, true, now2⟩]) C gid now2
      = st.store.users
        ++ [⟨A, gid, true, now1⟩, ⟨B, gid, true, now2⟩, ⟨C, gid, true, now2⟩] := by
    rw [upsertUserActive_append _ _ C gid now2 (hno C)]
    rw [upsertUserActive_not_found _ _ _ _ ?_]
    · rfl
    · intro u hu hc
      rcases List.mem_cons.1 hu with h1 | h2
      · subst h1
        exact hAC hc.1
      · rw [List.mem_singleton] at h2
        subst h2
        exact hBC hc.1
  have h2dA : updateUserInactive A gid now2
        (st.store.users
          ++ [⟨A, gid, true, now1⟩, ⟨B, gid, true, now2⟩, ⟨C, gid, true, now2⟩])
      = st.store.users
        ++ [⟨A, gid, false, now2⟩, ⟨B, gid, true, now2⟩, ⟨C, gid, true, now2⟩] := by
    rw [updateUserInactive_append _ _ A gid now2 (hno A)]
    simp [updateUserInactive]
  have e2 : (syncGroupMembers (syncGroupMembers st gid [A, B] now1) gid [B, C] now2).store.users
      = st.store.users
        ++ [⟨A, gid, false, now2⟩, ⟨B, gid, true, now2⟩, ⟨C, gid, true, now2⟩] := by
    rw [sync_users_formula _ gid [B, C] now2 hmonb1, hfil2, e1]
    simp only [List.foldl_cons, List.foldl_nil, h2B, h2C]
    rw [if_neg ?_]
    · rw [if_pos ?_]
      · exact h2dA
      · exact ⟨by simp [hAB, hAC], trivial⟩
    · exact fun hc => hc.1 (by simp)
  refine ⟨e2, ?_, ?_, ?_⟩
  · rw [(sync_frame _ gid [B, C] now2).1, hgroups1]
  · rw [(sync_frame _ gid [B, C] now2).2, hcache1]
  -- third sync
  · have hcache2 : (syncGroupMembers (syncGroupMembers st gid [A, B] now1) gid [B, C] now2).monitoredGroupsCache
        = st.monitoredGroupsCache := by
      rw [(sync_frame _ gid [B, C] now2).2, hcache1]
    have hmonb2 : isMonitored (syncGroupMembers (syncGroupMembers st gid [A, B] now1) gid [B, C] now2) gid = true := by
      simp [isMonitored, hcache2, hmon]
    have hfil3 : (syncGroupMembers (syncGroupMembers st gid [A, B] now1) gid [B, C] now2).store.users.filter
          (fun u => decide (u.groupId = gid))
        = [⟨A, gid, false, now2⟩, ⟨B, gid, true, now2⟩, ⟨C, gid, true, now2⟩] := by
      rw [e2, List.filter_append, hfil1]
      simp
    have h3B : upsertUserActive
          (st.store.users
            ++ [⟨A, gid, false, now2⟩, ⟨B, gid, true, now2⟩, ⟨C, gid, true, now2⟩]) B gid now3
        = st.store.users
          ++ [⟨A, gid, false, now2⟩, ⟨B, gid, true, now3⟩, ⟨C, gid, true, now2⟩] := by
      rw [upsertUserActive_append _ _ B gid now3 (hno B)]
      unfold upsertUserActive
      rw [if_pos ⟨⟨B, gid, true, now2⟩, by simp, rfl, rfl⟩]
      simp [updateUserActive, hAB]
    have h3C : upsertUserActive
          (st.store.users
            ++ [⟨A, gid, false, now2⟩, ⟨B, gid, true, now3⟩, ⟨C, gid, true, now2⟩]) C gid now3
        = st.store.users
          ++ [⟨A, gid, false, now2⟩, ⟨B, gid, true, now3⟩, ⟨C, gid, true, now3⟩] := by
      rw [upsertUserActive_append _ _ C gid now3 (hno C)]
      unfold upsertUserActive
      rw [if_pos ⟨⟨C, gid, true, now2⟩, by simp, rfl, rfl⟩]
      simp [updateUserActive, hAC, hBC]
    rw [sync_users_formula _ gid [B, C] now3 hmonb2, hfil3, e2]
    simp only [List.foldl_cons, List.foldl_nil, h3B, h3C]
    rw [if_neg ?_]
    · rw [if_neg ?_]
      · rw [if_neg ?_]
        exact fun hc => absurd hc.2 (by simp)
      · exact fun hc => hc.1 (by simp)
    · exact fun hc => hc.1 (by simp)

/-- Witness for C1 at a concrete monitored group and three identifiers. -/
theorem syncGroupMembers_two_snapshots_witness :
    (syncGroupMembers (syncGroupMembers ⟨⟨[], []⟩, ["g"]⟩ "g" ["a", "b"] 1) "g" ["b", "c"] 2).store.users
        = [⟨"a", "g", false, 2⟩, ⟨"b", "g", true, 2⟩, ⟨"c", "g", true, 2⟩]
      ∧ (syncGroupMembers (syncGroupMembers (syncGroupMembers ⟨⟨[], []⟩, ["g"]⟩ "g" ["a", "b"] 1) "g" ["b", "c"] 2) "g" ["b", "c"] 3).store.users
        = [⟨"a", "g", false, 2⟩, ⟨"b", "g", true, 3⟩, ⟨"c", "g", true, 3⟩] := by
  obtain ⟨h1, _, _, h4⟩ :=
    syncGroupMembers_two_snapshots ⟨⟨[], []⟩, ["g"]⟩ "g" "a" "b" "c" 1 2 3
      (by decide) (by decide) (by decide) (by decide) (by decide)
  exact ⟨h1, h4⟩

lemma status_fold (s : Store) (l : List GroupRec) (tg fg : Nat) (ds : List GroupDetail) :
    l.foldl
      (fun acc g =>
        let d := groupDetailOf s g
        ( (if d.containsTargetKeyword then acc.1 + 1 else acc.1)
        , (if d.containsTargetKeyword then acc.2.1 else acc.2.1 + 1)
        , acc.2.2 ++ [d]))
      (tg, fg, ds)
    = ( tg + (l.map (groupDetailOf s)).countP (fun d => d.containsTargetKeyword)
      , fg + (l.map (groupDetailOf s)).countP (fun d => !d.containsTargetKeyword)
      , ds ++ l.map (groupDetailOf s)) := by
  induction l generalizing tg fg ds with
  | nil => simp
  | cons g gs ih =>
    simp only [List.foldl_cons, List.map_cons, List.countP_cons]
    rw [ih]
    cases hb : (groupDetailOf s g).containsTargetKeyword <;>
      simp [hb, Prod.ext_iff, List.append_assoc] <;> omega

lemma countP_keyword_split (l : List GroupDetail) :
    l.length = l.countP (fun d => d.containsTargetKeyword)
      + l.countP (fun d => !d.containsTargetKeyword) := by
  induction l with
  | nil => rfl
  | cons d ds ih =>
    cases hb : d.containsTargetKeyword <;>
      simp [List.countP_cons, hb, ih] <;> omega

lemma getDatabaseStatus_eq (s : Store) :
    getDatabaseStatus s
      = { totalGroups := (s.groups.filter (fun g => g.isMonitored)).length
        , targetGroups := ((s.groups.filter (fun g => g.isMonitored)).map
            (groupDetailOf s)).countP (fun d => d.containsTargetKeyword)
        , forceMonitoredGroups := ((s.groups.filter (fun g => g.isMonitored)).map
            (groupDetailOf s)).countP (fun d => !d.containsTargetKeyword)
        , groupDetails := (s.groups.filter (fun g => g.isMonitored)).map (groupDetailOf s) } := by
  unfold getDatabaseStatus
  simp only [status_fold]
  simp

/-- C6: the status report lists, for every persisted monitored group, a
detail entry whose total/active counts are the two membership-count
queries, whose inactive count is total minus active, and whose
classification re-applies the keyword predicate to the stored name;
total groups split exactly into keyword matches plus force-monitored;
and on the spec's concrete scenario the aggregates are
totalGroups = 2, targetGroups = 1, forceMonitoredGroups = 1 with
matching per-group detail. -/
theorem getDatabaseStatus_counts :
    (∀ s : Store, ∀ g ∈ s.groups, g.isMonitored = true →
        ∃ d ∈ (getDatabaseStatus s).groupDetails,
          d.id = g.groupId
            ∧ d.totalMembers = countUsers s g.groupId
            ∧ d.activeMembers = countActiveUsers s g.groupId
            ∧ d.inactiveMembers = d.totalMembers - d.activeMembers
            ∧ d.containsTargetKeyword = isTargetGroup (jsOrStr g.name ""))
      ∧ (∀ s : Store, (getDatabaseStatus s).totalGroups
          = (getDatabaseStatus s).targetGroups + (getDatabaseStatus s).forceMonitoredGroups)
      ∧ getDatabaseStatus scenarioStore
        = ⟨2, 1, 1, [⟨"neol friends", "g1", true, 3, 2, 1⟩, ⟨"Random Chat", "g2", false, 0, 0, 0⟩]⟩ := by
  refine ⟨?_, ?_, ?_⟩
  · intro s g hg hm
    refine ⟨groupDetailOf s g, ?_, rfl, rfl, rfl, rfl, rfl⟩
    rw [getDatabaseStatus_eq]
    exact List.mem_map_of_mem _ (List.mem_filter.2 ⟨hg, hm⟩)
  · intro s
    rw [getDatabaseStatus_eq]
    have h := countP_keyword_split
      ((s.groups.filter (fun g => g.isMonitored)).map (groupDetailOf s))
    simpa [List.length_map] using h
  · decide

/-- Witness for C6 at the keyword-matching scenario group. -/
theorem getDatabaseStatus_counts_witness :
    ∃ d ∈ (getDatabaseStatus scenarioStore).groupDetails,
      d.id = "g1"
        ∧ d.totalMembers = countUsers scenarioStore "g1"
        ∧ d.activeMembers = countActiveUsers scenarioStore "g1"
        ∧ d.inactiveMembers = d.totalMembers - d.activeMembers
        ∧ d.containsTargetKeyword = isTargetGroup (jsOrStr (some "neol friends") "") :=
  getDatabaseStatus_counts.1 scenarioStore ⟨"g1", true, some "neol friends", 0⟩
    (by decide) (by decide)

lemma added_frame (st : ServiceState) (gid : String) (ms : List String) (now : Nat) :
    (handleMembersAdded st gid ms now).monitoredGroupsCache = st.monitoredGroupsCache
      ∧ (handleMembersAdded st gid ms now).store.groups = st.store.groups := by
  unfold handleMembersAdded
  split <;> exact ⟨rfl, rfl⟩

lemma removed_frame (st : ServiceState) (gid : String) (ms : List String) (now : Nat) :
    (handleMembersRemoved st gid ms now).monitoredGroupsCache = st.monitoredGroupsCache
      ∧ (handleMembersRemoved st gid ms now).store.groups = st.store.groups := by
  unfold handleMembersRemoved
  split <;> exact ⟨rfl, rfl⟩

lemma ite_cache_mono (c : Prop) [Decidable c] (f : ServiceState → ServiceState)
    (st : ServiceState)
    (hf : st.monitoredGroupsCache ⊆ (f st).monitoredGroupsCache) :
    st.monitoredGroupsCache ⊆ (if c then f st else st).monitoredGroupsCache := by
  split
  · exact hf
  · exact fun x hx => hx

lemma handleHiCommand_cache_mono (st : ServiceState) (jid : String)
    (oracle : String → Option GroupMetadata) (now : Nat) :
    st.monitoredGroupsCache ⊆ (handleHiCommand st jid oracle now).monitoredGroupsCache := by
  unfold handleHiCommand
  split
  · exact fun x hx => hx
  · split
    · rw [(sync_frame _ _ _ _).2]
      exact add_cache_superset _ _ _ _
    · exact fun x hx => hx

lemma handleSyncCommand_cache_mono (st : ServiceState) (jid : String)
    (oracle : String → Option GroupMetadata) (now : Nat) :
    st.monitoredGroupsCache ⊆ (handleSyncCommand st jid oracle now).monitoredGroupsCache := by
  unfold handleSyncCommand
  split
  · exact fun x hx => hx
  · rw [(sync_frame _ _ _ _).2]
    exact add_cache_superset _ _ _ _

lemma processMessage_cache_mono (oracle : String → Option GroupMetadata) (now : Nat)
    (st : ServiceState) (m : WAMessage) :
    st.monitoredGroupsCache ⊆ (processMessage oracle now st m).monitoredGroupsCache := by
  unfold processMessage
  split
  · exact fun x hx => hx
  · split
    · exact fun x hx => hx
    · rename_i jid _
      simp only [ite_self]
      exact List.Subset.trans
        (ite_cache_mono (m.fromMe = true ∧ messageText m = "Hi!" ∧ isJidGroup jid = true)
          (fun s => handleHiCommand s jid oracle now) st
          (handleHiCommand_cache_mono st jid oracle now))
        (ite_cache_mono (m.fromMe = true ∧ messageText m = "sync" ∧ isJidGroup jid = true)
          (fun s => handleSyncCommand s jid oracle now) _
          (handleSyncCommand_cache_mono _ jid oracle now))

lemma handleGroupParticipantsUpdate_cache_mono (oracle : String → Option GroupMetadata)
    (now : Nat) (st : ServiceState) (gid : String) (ps : List String) (a : String) :
    st.monitoredGroupsCache
      ⊆ (handleGroupParticipantsUpdate oracle now st gid ps a).monitoredGroupsCache := by
  unfold handleGroupParticipantsUpdate
  split
  · split
    · rw [(added_frame _ _ _ _).1]
      exact fun x hx => hx
    · split
      · rw [(removed_frame _ _ _ _).1]
        exact fun x hx => hx
      · exact fun x hx => hx
  · split
    · exact fun x hx => hx
    · rename_i md heq
      split
      · have h2 := (sync_frame (addGroupToMonitored st gid (some md.subject) now)
          gid md.participants now).2
        split
        · rw [(added_frame _ _ _ _).1, h2]
          exact add_cache_superset _ _ _ _
        · split
          · rw [(removed_frame _ _ _ _).1, h2]
            exact add_cache_superset _ _ _ _
          · rw [h2]
            exact add_cache_superset _ _ _ _
      · exact fun x hx => hx

lemma handleGroupsUpdateOne_cache_mono (oracle : String → Option GroupMetadata)
    (now : Nat) (st : ServiceState) (u : GroupUpdate) :
    st.monitoredGroupsCache ⊆ (handleGroupsUpdateOne oracle now st u).monitoredGroupsCache := by
  unfold handleGroupsUpdateOne
  split
  · exact fun x hx => hx
  · rename_i gid
    split
    · exact fun x hx => hx
    · split
      · exact fun x hx => hx
      · rename_i s
        split
        · exact fun x hx => hx
        · split
          · exact add_cache_superset _ _ _ _
          · split
            · split
              · exact fun x hx => hx
              · rename_i md
                rw [(sync_frame _ _ _ _).2]
                exact add_cache_superset _ _ _ _
            · exact fun x hx => hx

lemma handleGroupsUpsertOne_cache_mono (now : Nat) (st : ServiceState) (g : UpsertGroup) :
    st.monitoredGroupsCache ⊆ (handleGroupsUpsertOne now st g).monitoredGroupsCache := by
  unfold handleGroupsUpsertOne
  split
  · split
    · rename_i ps
      split
      · rw [(sync_frame _ _ _ _).2]
        exact add_cache_superset _ _ _ _
      · exact add_cache_superset _ _ _ _
    · exact add_cache_superset _ _ _ _
  · exact fun x hx => hx

lemma foldl_cache_mono {α : Type} (f : ServiceState → α → ServiceState)
    (hf : ∀ s a, s.monitoredGroupsCache ⊆ (f s a).monitoredGroupsCache) :
    ∀ (l : List α) (s : ServiceState),
      s.monitoredGroupsCache ⊆ (l.foldl f s).monitoredGroupsCache
  | [], _ => fun _ hx => hx
  | a :: l, s =>
    List.Subset.trans (hf s a) (foldl_cache_mono f hf l (f s a))

lemma fetchAndMonitorTargetGroups_cache_mono (st : ServiceState)
    (allGroups : List (String × GroupMetadata)) (now : Nat) :
    st.monitoredGroupsCache
      ⊆ (fetchAndMonitorTargetGroups st allGroups now).monitoredGroupsCache := by
  unfold fetchAndMonitorTargetGroups
  refine foldl_cache_mono _ ?_ allGroups st
  intro s p
  split
  · rw [(sync_frame _ _ _ _).2]
    exact add_cache_superset _ _ _ _
  · exact fun x hx => hx

lemma handleEvent_cache_mono (oracle : String → Option GroupMetadata) (now : Nat)
    (st : ServiceState) (ev : WAEvent) :
    st.monitoredGroupsCache ⊆ (handleEvent oracle now st ev).monitoredGroupsCache := by
  cases ev with
  | participantsUpdate gid ps a =>
    exact handleGroupParticipantsUpdate_cache_mono oracle now st gid ps a
  | groupsUpdate us =>
    exact foldl_cache_mono _ (fun s u => handleGroupsUpdateOne_cache_mono oracle now s u) us st
  | groupsUpsert gs =>
    exact foldl_cache_mono _ (fun s g => handleGroupsUpsertOne_cache_mono now s g) gs st
  | messagesUpsert ms =>
    exact foldl_cache_mono _ (fun s m => processMessage_cache_mono oracle now s m) ms st
  | connectionOpen gs =>
    exact fetchAndMonitorTargetGroups_cache_mono st gs now
  | connectionClose b =>
    exact List.Subset.refl _

/-- C7: monitoring is sticky. For every event the in-memory monitored
set after handling contains the one before (no handler ever removes a
group), and a rename of a monitored group to a name that no longer
matches the keyword still updates the stored name while the group stays
monitored in both the cache and the persisted record. -/
theorem monitored_set_sticky (oracle : String → Option GroupMetadata) (now : Nat)
    (st : ServiceState) (ev : WAEvent) (gid newName : String)
    (hmon : gid ∈ st.monitoredGroupsCache) (hgid : gid ≠ "") (hname : newName ≠ "")
    (_hnokw : isTargetGroup newName = false) :
    st.monitoredGroupsCache ⊆ (handleEvent oracle now st ev).monitoredGroupsCache
      ∧ gid ∈ (handleEvent oracle now st
          (.groupsUpdate [⟨some gid, some newName⟩])).monitoredGroupsCache
      ∧ (∃ r ∈ (handleEvent oracle now st
            (.groupsUpdate [⟨some gid, some newName⟩])).store.groups,
          r.groupId = gid ∧ r.isMonitored = true ∧ r.name = some newName) := by
  have hmonb : isMonitored st gid = true := by
    simp [isMonitored, hmon]
  have hred : handleEvent oracle now st (.groupsUpdate [⟨some gid, some newName⟩])
      = addGroupToMonitored st gid (some newName) now := by
    simp [handleEvent, handleGroupsUpdateOne, hgid, hname, hmonb]
  refine ⟨handleEvent_cache_mono oracle now st ev, ?_, ?_⟩
  · rw [hred]
    exact add_cache_mem st gid (some newName) now
  · rw [hred]
    obtain ⟨r, hr, hrg, hrm, _, hrn⟩ :=
      upsertGroupMonitored_mem_target st.store.groups gid (some newName) now
    exact ⟨r, hr, hrg, hrm, hrn newName rfl⟩

/-- Witness for C7: a monitored group renamed to a keyword-free name
during a metadata-update event. -/
theorem monitored_set_sticky_witness :
    (⟨⟨[⟨"g", true, some "neol x", 0⟩], []⟩, ["g"]⟩ : ServiceState).monitoredGroupsCache
        ⊆ (handleEvent (fun _ => none) 7 ⟨⟨[⟨"g", true, some "neol x", 0⟩], []⟩, ["g"]⟩
            (.connectionClose false)).monitoredGroupsCache
      ∧ "g" ∈ (handleEvent (fun _ => none) 7 ⟨⟨[⟨"g", true, some "neol x", 0⟩], []⟩, ["g"]⟩
          (.groupsUpdate [⟨some "g", some "Random"⟩])).monitoredGroupsCache
      ∧ (∃ r ∈ (handleEvent (fun _ => none) 7 ⟨⟨[⟨"g", true, some "neol x", 0⟩], []⟩, ["g"]⟩
            (.groupsUpdate [⟨some "g", some "Random"⟩])).store.groups,
          r.groupId = "g" ∧ r.isMonitored = true ∧ r.name = some "Random") :=
  monitored_set_sticky (fun _ => none) 7 ⟨⟨[⟨"g", true, some "neol x", 0⟩], []⟩, ["g"]⟩
    (.connectionClose false) "g" "Random" (by decide) (by decide) (by decide) (by decide)

/-- C5: a self-authored message whose body is exactly `"sync"` in a
group makes the router register that group as monitored and reconcile
its roster, with no keyword hypothesis anywhere: the group id enters the
cache, a persisted record with `isMonitored = true` and the fetched name
exists, and when the name fails the keyword predicate the status report
still lists the group, classified as not-a-keyword-match, so it counts
toward the force-monitored total. -/
theorem sync_command_force_monitors (st : ServiceState) (m : WAMessage) (jid : String)
    (md : GroupMetadata) (oracle : String → Option GroupMetadata) (now : Nat)
    (hcontent : m.hasContent = true) (hjid : m.remoteJid = some jid)
    (hme : m.fromMe = true) (htext : messageText m = "sync")
    (hgroup : isJidGroup jid = true) (horacle : oracle jid = some md) :
    jid ∈ (handleEvent oracle now st (.messagesUpsert [m])).monitoredGroupsCache
      ∧ (∃ g ∈ (handleEvent oracle now st (.messagesUpsert [m])).store.groups,
          g.groupId = jid ∧ g.isMonitored = true ∧ g.name = some md.subject)
      ∧ (isTargetGroup md.subject = false →
          (∃ d ∈ (getDatabaseStatus
                (handleEvent oracle now st (.messagesUpsert [m])).store).groupDetails,
              d.id = jid ∧ d.containsTargetKeyword = false)
            ∧ 1 ≤ (getDatabaseStatus
                (handleEvent oracle now st (.messagesUpsert [m])).store).forceMonitoredGroups) := by
  have hHi : ("sync" : String) ≠ "Hi!" := by decide
  have hchk : ("sync" : String) ≠ "check" := by decide
  have hred : handleEvent oracle now st (.messagesUpsert [m])
      = syncGroupMembers (addGroupToMonitored st jid (some md.subject) now) jid
          md.participants now := by
    simp [handleEvent, processMessage, handleSyncCommand, hcontent, hjid, hme, htext,
      hgroup, hHi, hchk, horacle]
  rw [hred]
  obtain ⟨r, hr, hrg, hrm, _, hrn⟩ :=
    upsertGroupMonitored_mem_target st.store.groups jid (some md.subject) now
  have hrn' : r.name = some md.subject := hrn md.subject rfl
  have hrmem : r ∈ (syncGroupMembers (addGroupToMonitored st jid (some md.subject) now)
      jid md.participants now).store.groups := by
    rw [(sync_frame _ _ _ _).1]
    exact hr
  refine ⟨?_, ⟨r, hrmem, hrg, hrm, hrn'⟩, ?_⟩
  · rw [(sync_frame _ _ _ _).2]
    exact add_cache_mem st jid (some md.subject) now
  · intro hkw
    have hdkw : isTargetGroup (jsOrStr r.name "") = false := by
      rw [hrn']
      by_cases hs : md.subject = ""
      · simp [jsOrStr, hs]
        decide
      · simpa [jsOrStr, hs] using hkw
    have hdmem : groupDetailOf (syncGroupMembers (addGroupToMonitored st jid
          (some md.subject) now) jid md.participants now).store r
        ∈ (getDatabaseStatus (syncGroupMembers (addGroupToMonitored st jid
          (some md.subject) now) jid md.participants now).store).groupDetails := by
      rw [getDatabaseStatus_eq]
      exact List.mem_map_of_mem _ (List.mem_filter.2 ⟨hrmem, hrm⟩)
    refine ⟨⟨_, hdmem, hrg, hdkw⟩, ?_⟩
    rw [getDatabaseStatus_eq]
    refine List.countP_pos_iff.2
      ⟨groupDetailOf (syncGroupMembers (addGroupToMonitored st jid (some md.subject) now)
          jid md.participants now).store r, ?_, ?_⟩
    · rw [getDatabaseStatus_eq] at hdmem
      exact hdmem
    · simp [groupDetailOf, hdkw]

/-- Witness for C5: an empty state, a concrete `"sync"` message in a
group whose name lacks the keyword. -/
theorem sync_command_force_monitors_witness :
    "123@g.us" ∈ (handleEvent (fun _ => some ⟨"Random Chat", ["77"]⟩) 9 ⟨⟨[], []⟩, []⟩
        (.messagesUpsert [⟨some "123@g.us", true, true, some "sync", none⟩])).monitoredGroupsCache
      ∧ (∃ g ∈ (handleEvent (fun _ => some ⟨"Random Chat", ["77"]⟩) 9 ⟨⟨[], []⟩, []⟩
            (.messagesUpsert [⟨some "123@g.us", true, true, some "sync", none⟩])).store.groups,
          g.groupId = "123@g.us" ∧ g.isMonitored = true
            ∧ g.name = some (⟨"Random Chat", ["77"]⟩ : GroupMetadata).subject)
      ∧ (isTargetGroup (⟨"Random Chat", ["77"]⟩ : GroupMetadata).subject = false →
          (∃ d ∈ (getDatabaseStatus (handleEvent (fun _ => some ⟨"Random Chat", ["77"]⟩) 9
                ⟨⟨[], []⟩, []⟩ (.messagesUpsert
                  [⟨some "123@g.us", true, true, some "sync", none⟩])).store).groupDetails,
              d.id = "123@g.us" ∧ d.containsTargetKeyword = false)
            ∧ 1 ≤ (getDatabaseStatus (handleEvent (fun _ => some ⟨"Random Chat", ["77"]⟩) 9
                ⟨⟨[], []⟩, []⟩ (.messagesUpsert
                  [⟨some "123@g.us", true, true, some "sync", none⟩])).store).forceMonitoredGroups) :=
  sync_command_force_monitors ⟨⟨[], []⟩, []⟩ ⟨some "123@g.us", true, true, some "sync", none⟩
    "123@g.us" ⟨"Random Chat", ["77"]⟩ (fun _ => some ⟨"Random Chat", ["77"]⟩) 9
    (by decide) rfl (by decide) (by decide) (by decide) rfl

/-- C8 counterexample: with the user-write primitive failing, a
participant-add event for a group that is already monitored makes the
handler itself throw — the error is not caught at the handler boundary
and escapes the event dispatch. -/
theorem handler_error_escapes :
    escaped (handleEventE ⟨false, true, false, false, false⟩ (fun _ => none) 7
      ⟨⟨[], []⟩, ["g"]⟩ (.participantsUpdate "g" ["x"] "add")) = true := by
  decide

/-- C8 (amended): store and metadata errors are caught and discarded in
the message-command handlers, the connection-open scan, and the
unmonitored-group participant path; but a store write error raised
while handling a participant add/remove for an already-monitored group,
or while renaming a monitored group, propagates out of the handler
(the event is not retried in any case). -/
theorem handler_errors_partially_caught (f : Faults)
    (oracle : String → Option GroupMetadata) (now : Nat) (st : ServiceState)
    (ms : List WAMessage) (gs : List (String × GroupMetadata))
    (gid : String) (ps : List String) (a : String) :
    (∃ s, handleEventE f oracle now st (.messagesUpsert ms) = .ok s)
      ∧ (∃ s, handleEventE f oracle now st (.connectionOpen gs) = .ok s)
      ∧ (gid ∉ st.monitoredGroupsCache →
          ∃ s, handleEventE f oracle now st (.participantsUpdate gid ps a) = .ok s)
      ∧ (gid ∈ st.monitoredGroupsCache → a = "add" → ps ≠ [] → f.userWrite = true →
          escaped (handleEventE f oracle now st (.participantsUpdate gid ps a)) = true)
      ∧ (gid ∈ st.monitoredGroupsCache → a = "remove" → ps ≠ [] → f.userWrite = true →
          escaped (handleEventE f oracle now st (.participantsUpdate gid ps a)) = true)
      ∧ (∀ u : GroupUpdate, ∀ s : String, u.id = some gid → gid ≠ "" →
          u.subject = some s → s ≠ "" → gid ∈ st.monitoredGroupsCache →
          f.groupWrite = true →
          escaped (handleEventE f oracle now st (.groupsUpdate [u])) = true) := by
  refine ⟨⟨_, rfl⟩, ⟨_, rfl⟩, ?_, ?_, ?_, ?_⟩
  · intro hnm
    have hb : isMonitored st gid = false := by simp [isMonitored, hnm]
    show ∃ s, handleGroupParticipantsUpdateE f oracle now st gid ps a = .ok s
    simp only [handleGroupParticipantsUpdateE, hb]
    rw [if_neg (by simp)]
    split
    · exact ⟨st, rfl⟩
    · split
      · exact ⟨_, rfl⟩
      · exact ⟨st, rfl⟩
  · intro hm ha hps hw
    subst ha
    have hb : isMonitored st gid = true := by simp [isMonitored, hm]
    simp [handleEventE, handleGroupParticipantsUpdateE, handleMembersAddedE, hb, hps, hw,
      escaped]
  · intro hm ha hps hw
    subst ha
    have hb : isMonitored st gid = true := by simp [isMonitored, hm]
    simp [handleEventE, handleGroupParticipantsUpdateE, handleMembersRemovedE, hb, hps, hw,
      escaped]
  · intro u s hid hgid hsub hs hm hw
    have hb : isMonitored st gid = true := by simp [isMonitored, hm]
    simp [handleEventE, handleGroupsUpdateE, handleGroupsUpdateOneE, hid, hsub, hgid, hs,
      hb, addGroupToMonitoredE, hw, bindE, escaped]

/-- Witness for C8's amended claim at concrete faulty stores. -/
theorem handler_errors_partially_caught_witness :
    (∃ s, handleEventE ⟨true, true, false, false, false⟩ (fun _ => none) 7
        ⟨⟨[], []⟩, ["g"]⟩ (.messagesUpsert []) = .ok s)
      ∧ (∃ s, handleEventE ⟨true, true, false, false, false⟩ (fun _ => none) 7
          ⟨⟨[], []⟩, ["g"]⟩ (.participantsUpdate "h" ["x"] "add") = .ok s)
      ∧ escaped (handleEventE ⟨true, true, false, false, false⟩ (fun _ => none) 7
          ⟨⟨[], []⟩, ["g"]⟩ (.participantsUpdate "g" ["x"] "add")) = true
      ∧ escaped (handleEventE ⟨true, true, false, false, false⟩ (fun _ => none) 7
          ⟨⟨[], []⟩, ["g"]⟩ (.groupsUpdate [⟨some "g", some "Random"⟩])) = true :=
  ⟨(handler_errors_partially_caught ⟨true, true, false, false, false⟩ (fun _ => none) 7
      ⟨⟨[], []⟩, ["g"]⟩ [] [] "g" ["x"] "add").1,
   (handler_errors_partially_caught ⟨true, true, false, false, false⟩ (fun _ => none) 7
      ⟨⟨[], []⟩, ["g"]⟩ [] [] "h" ["x"] "add").2.2.1 (by decide),
   (handler_errors_partially_caught ⟨true, true, false, false, false⟩ (fun _ => none) 7
      ⟨⟨[], []⟩, ["g"]⟩ [] [] "g" ["x"] "add").2.2.2.1 (by decide) rfl (by decide) rfl,
   (handler_errors_partially_caught ⟨true, true, false, false, false⟩ (fun _ => none) 7
      ⟨⟨[], []⟩, ["g"]⟩ [] [] "g" ["x"] "add").2.2.2.2.2 ⟨some "g", some "Random"⟩
      "Random" rfl (by decide) rfl (by decide) (by decide) rfl⟩
